import Mathlib

/-!
Verification of the synchronization core of `claude_log_server.py`.

The filesystem is modelled as a list of project directories, each holding a
flat list of file entries (name, mtime, size); the only paths the program
forms are `<project dir>/<file name>`, so a pair of strings stands for a
path.  Clock readings are natural numbers (the code compares `time.time()`
floats only by `<`, `>=` and subtraction of earlier from later values, which
truncated Nat subtraction reproduces).  The external renderer subprocess is
an oracle parameter: its exit code / timeout / raised-exception outcome is an
input, and its effect on the rendered files is not inspected by any theorem.
-/

namespace ClaudeLog

/-- Python `str.endswith`, as a character-list suffix test (kept structural
so that concrete runs reduce inside the kernel). -/
def strEndsWith (s t : String) : Bool := t.data.isSuffixOf s.data

/-- Python `str.startswith`, as a character-list prefix test. -/
def strStartsWith (s t : String) : Bool := t.data.isPrefixOf s.data

/-- One file of a project directory: name, last-modified time, byte size. -/
structure FEntry where
  fname : String
  mtime : Nat
  fsize : Nat
deriving DecidableEq

/-- One project directory under the project root (PROJECT_DIR). -/
structure ProjDir where
  dname : String
  entries : List FEntry
deriving DecidableEq

/-- The project root: the list of project directories (non-directory
children of PROJECT_DIR are skipped by every `iterdir` loop of the code, so
they are not modelled). -/
abbrev FS := List ProjDir

/-- First directory entry with the given file name (`Path.exists` / `stat`
on `dir / name`). -/
def lookupEntry (es : List FEntry) (n : String) : Option FEntry :=
  es.find? (fun e => e.fname = n)

/-- Modification time of a file of the directory, if it exists. -/
def fileMtime? (es : List FEntry) (n : String) : Option Nat :=
  (lookupEntry es n).map (fun e => e.mtime)

/-- Whether some project directory called `d` contains a file called `n`. -/
def fsHasFile (fs : FS) (d n : String) : Bool :=
  fs.any (fun p => p.dname = d && (lookupEntry p.entries n).isSome)

/-- Remove file `n` from every project directory called `d` (`Path.unlink`). -/
def removeFile (fs : FS) (d n : String) : FS :=
  fs.map (fun p =>
    if p.dname = d then ⟨p.dname, p.entries.filter (fun e => e.fname ≠ n)⟩ else p)

/-- Python `Path.stem` for a name that ends in ".jsonl": everything before
the final dot — except that for the bare name ".jsonl" the stem is the name
itself (its lone dot is the leading one, which `stem` keeps). -/
def pyStem (n : String) : String :=
  if n.data.length = 6 then n else ⟨n.data.take (n.data.length - 6)⟩

/-- Name of the session artifact rendered from the shard called `n`
(`f"session-{session_id}.html"` with `session_id = jsonl_file.stem`). -/
def sessionHtmlName (n : String) : String :=
  "session-" ++ pyStem n ++ ".html"

/-- Name of the per-project aggregate artifact. -/
def combinedName : String := "combined_transcripts.html"

/-- Whether the pair `(d, f)` is already in the accumulated list
(`jsonl_file not in outdated`, Path equality being directory plus name). -/
def listHasPair (l : List (String × String)) (d f : String) : Bool :=
  l.any (fun pr => pr.1 = d && pr.2 = f)

/-- Body of the shard loop of `find_outdated_sessions`: one `glob("*.jsonl")`
hit `e` of the directory listing `all` of project `d`, folded over the
accumulated result list.  Mirrors the source's if/elif chain: skip agent
shards; flag when the session artifact is absent, or older than the shard,
or (elif) when the aggregate artifact exists and is older than the shard
(this last append is guarded by `not in outdated`). -/
def outdatedStep (all : List FEntry) (d : String)
    (acc : List (String × String)) (e : FEntry) : List (String × String) :=
  if strEndsWith e.fname ".jsonl" && !(strStartsWith e.fname "agent-") then
    match fileMtime? all (sessionHtmlName e.fname) with
    | none => acc ++ [(d, e.fname)]
    | some hm =>
      if hm < e.mtime then acc ++ [(d, e.fname)]
      else
        match fileMtime? all combinedName with
        | some cm =>
          if cm < e.mtime && !(listHasPair acc d e.fname) then acc ++ [(d, e.fname)]
          else acc
        | none => acc
  else acc

/-- `find_outdated_sessions`: walk every project directory and collect the
shards the if/elif chain flags, in directory order. -/
def find_outdated_sessions (fs : FS) : List (String × String) :=
  fs.foldl (fun acc p => p.entries.foldl (outdatedStep p.entries p.dname) acc) []

/-- The claim's staleness condition as the spec words it: the session
artifact is absent, or its modification time is strictly less than the
shard's. -/
def specStale (es : List FEntry) (e : FEntry) : Bool :=
  match fileMtime? es (sessionHtmlName e.fname) with
  | none => true
  | some hm => decide (hm < e.mtime)

/-- The staleness condition the code actually applies to a non-agent shard:
the spec's condition, or the aggregate artifact exists and is older than the
shard. -/
def codeStale (es : List FEntry) (e : FEntry) : Bool :=
  strEndsWith e.fname ".jsonl" && !(strStartsWith e.fname "agent-") &&
    (match fileMtime? es (sessionHtmlName e.fname) with
     | none => true
     | some hm =>
       if hm < e.mtime then true
       else
         match fileMtime? es combinedName with
         | some cm => decide (cm < e.mtime)
         | none => false)

/-- Outcome classification of one `regenerate_logs` run (the Python function
returns `None` everywhere; this names its distinct exit paths). -/
inductive RegenOutcome
  | skipped
  | upToDate
  | success (updated : Nat)
  | warnExit
  | warnTimeout
  | warnError
deriving DecidableEq

/-- Oracle for the renderer subprocess: exit with a code and captured
stderr, hit the 300 s timeout, or raise some other exception. -/
inductive SubOutcome
  | completed (exitCode : Nat) (stderrTxt : String)
  | timedOut
  | raised
deriving DecidableEq

/-- Everything one `regenerate_logs` call did: its exit path, whether the
body past the re-entrance guard ran (the flag was set true), the subprocess
command if one was launched, the files unlinked in order, the resulting
tree (before any renderer effect), and the `regeneration_in_progress` value
after the call. -/
structure RegenResult where
  outcome : RegenOutcome
  startedRun : Bool
  invokedCmd : Option (List String)
  deletedFiles : List (String × String)
  fsAfter : FS
  inProgressAfter : Bool
deriving DecidableEq

/-- The cache-bug scan of `regenerate_logs`: some project directory has at
least one `*.jsonl` file (agent shards included — the code uses a bare
glob here) but no aggregate artifact. -/
def cacheBug (fs : FS) : Bool :=
  fs.any (fun p =>
    p.entries.any (fun e => strEndsWith e.fname ".jsonl") &&
      !(lookupEntry p.entries combinedName).isSome)

/-- First-occurrence deduplication, standing in for the Python `set` of
parent directories of the stale shards (set iteration order is not
specified; no theorem depends on the order of this list). -/
def dedupKeepFirst (l : List String) : List String :=
  l.foldl (fun acc d => if acc.contains d then acc else acc ++ [d]) []

/-- Delete a file if it exists, best-effort, recording the deletion.
OS-level unlink failures (caught and logged by the code) are not modelled:
in this model every unlink of an existing file succeeds. -/
def deleteIfPresent (st : FS × List (String × String)) (d n : String) :
    FS × List (String × String) :=
  if fsHasFile st.1 d n then (removeFile st.1 d n, st.2 ++ [(d, n)]) else st

/-- `regenerate_logs(force_clear)`: re-entrance guard, stale-set scan, early
return when nothing is stale, cache-bug scan (before any deletion), deletion
of stale session artifacts then of the touched projects' aggregate
artifacts, subprocess invocation (with `--clear-html` iff the cache-bug
condition or `force_clear`), and outcome classification.  The
`try`/`finally` of the source clears the in-progress flag on every path
that set it. -/
def regenerate_logs (fs : FS) (inProgress : Bool) (forceClear : Bool)
    (sub : SubOutcome) : RegenResult :=
  if inProgress then
    { outcome := .skipped, startedRun := false, invokedCmd := none,
      deletedFiles := [], fsAfter := fs, inProgressAfter := true }
  else
    let outdated := find_outdated_sessions fs
    if outdated.isEmpty && !forceClear then
      { outcome := .upToDate, startedRun := true, invokedCmd := none,
        deletedFiles := [], fsAfter := fs, inProgressAfter := false }
    else
      let missingCombined := cacheBug fs
      let projs := dedupKeepFirst (outdated.map (fun pr => pr.1))
      let st1 := outdated.foldl
        (fun st pr => deleteIfPresent st pr.1 (sessionHtmlName pr.2)) (fs, [])
      let st2 := projs.foldl (fun st d => deleteIfPresent st d combinedName) st1
      let cmd := if missingCombined || forceClear then
          ["uvx", "claude-code-log@latest", "--clear-html"]
        else
          ["uvx", "claude-code-log@latest"]
      let oc := match sub with
        | .completed 0 _ => RegenOutcome.success outdated.length
        | .completed _ _ => .warnExit
        | .timedOut => .warnTimeout
        | .raised => .warnError
      { outcome := oc, startedRun := true, invokedCmd := some cmd,
        deletedFiles := st2.2, fsAfter := st2.1, inProgressAfter := false }

/-- Debounce window of the watcher loop (seconds). -/
def DEBOUNCE_SECONDS : Nat := 60

/-- Minimum interval between regenerations (seconds). -/
def MAX_REGEN_FREQUENCY : Nat := 300

/-- The mutable locals of one `file_watcher` loop iteration. -/
structure WatcherState where
  lastSourceMtime : Nat
  lastChangeTime : Nat
  lastRegenTime : Nat
deriving DecidableEq

/-- What one watcher iteration does: nothing, or call `regenerate_logs`. -/
inductive WatchAction
  | idle
  | runRegen
deriving DecidableEq

/-- One iteration of the `while True` body of `file_watcher`, after the
sleep: observe the newest shard mtime, record a change, and regenerate only
when the debounce window has passed and the rate limit allows it.  The
several `time.time()` calls of one iteration are modelled as a single
reading `now`. -/
def watcherStep (st : WatcherState) (now : Nat) (currentSourceMtime : Nat) :
    WatcherState × WatchAction :=
  let st1 := if st.lastSourceMtime < currentSourceMtime then
      { st with lastChangeTime := now, lastSourceMtime := currentSourceMtime }
    else st
  if 0 < st1.lastChangeTime ∧ DEBOUNCE_SECONDS ≤ now - st1.lastChangeTime then
    if now - st1.lastRegenTime < MAX_REGEN_FREQUENCY then
      ({ st1 with lastChangeTime := 0 }, .idle)
    else
      ({ st1 with lastChangeTime := 0, lastRegenTime := now }, .runRegen)
  else
    (st1, .idle)

/-- A lowercase hex digit or a hyphen: one character of the class
`[a-f0-9-]` of the validation regex. -/
def isLowerHexOrDash (c : Char) : Bool :=
  ('a' ≤ c && c ≤ 'f') || ('0' ≤ c && c ≤ '9') || c = '-'

/-- Run of the regex engine for `[a-f0-9-]{36}`: consume exactly `n`
characters of the class, returning the rest of the input. -/
def matchRun : Nat → List Char → Option (List Char)
  | 0, rest => some rest
  | _ + 1, [] => none
  | n + 1, c :: cs => if isLowerHexOrDash c then matchRun n cs else none

/-- Python's `$` anchor (no MULTILINE): it matches at the end of the string,
and also just before a newline that is the last character. -/
def matchDollar : List Char → Bool
  | [] => true
  | [c] => c = '\n'
  | _ => false

/-- `re.match(r'^[a-f0-9-]{36}$', session_id)` of the delete handler, as a
Boolean: 36 characters of the class, then the `$` anchor. -/
def validate_session_id (s : String) : Bool :=
  match matchRun 36 s.data with
  | some rest => matchDollar rest
  | none => false

/-- The session-id shape named by the spec: exactly 36 characters, each a
hex digit (either case) or a hyphen.  Stated from the spec's words, for
comparison with `validate_session_id`. -/
def specSessionIdShape (s : String) : Bool :=
  s.data.length = 36 && s.data.all (fun c =>
    c.isDigit || ('a' ≤ c && c ≤ 'f') || ('A' ≤ c && c ≤ 'F') || c = '-')

/-- What `validate_session_id` accepts, stated declaratively: 36 characters
drawn from lowercase hex digits and hyphens, either alone or followed by a
single trailing newline. -/
def amendedIdShape (s : String) : Bool :=
  (s.data.take 36).all isLowerHexOrDash &&
    (s.data.length = 36 || (s.data.length = 37 && s.data.drop 36 = ['\n']))

/-- Responses of the delete-session handler, one constructor per
`json.dumps` site of the source. -/
inductive DeleteResponse
  | errMissing
  | errInvalidId
  | errNotFound
  | ok (deleted : List String)
  | errNothing
deriving DecidableEq

/-- Everything one delete-session request did: the JSON response, the files
actually unlinked (directory, name) in order, and the resulting tree. -/
structure DeleteResult where
  response : DeleteResponse
  removed : List (String × String)
  fsAfter : FS
deriving DecidableEq

/-- The `/api/delete-session` branch of `do_POST`: missing-field check,
session-id validation, project-directory check, then best-effort deletion
of the shard, the session artifact and (unconditionally, if present, and
without recording it in `deleted_files`) the aggregate artifact.  As in
`deleteIfPresent`, OS-level unlink failures are not modelled, so the
source's `errors` branch is unreachable here. -/
def delete_session (fs : FS) (projectFolder sessionId : String) : DeleteResult :=
  if projectFolder = "" || sessionId = "" then
    { response := .errMissing, removed := [], fsAfter := fs }
  else if !(validate_session_id sessionId) then
    { response := .errInvalidId, removed := [], fsAfter := fs }
  else if !(fs.any (fun p => p.dname = projectFolder)) then
    { response := .errNotFound, removed := [], fsAfter := fs }
  else
    let jsonlName := sessionId ++ ".jsonl"
    let htmlName := "session-" ++ sessionId ++ ".html"
    let stA := deleteIfPresent (fs, []) projectFolder jsonlName
    let stB := deleteIfPresent stA projectFolder htmlName
    let deletedNames := stB.2.map (fun pr => pr.2)
    let stC := deleteIfPresent stB projectFolder combinedName
    if deletedNames.isEmpty then
      { response := .errNothing, removed := stC.2, fsAfter := stC.1 }
    else
      { response := .ok deletedNames, removed := stC.2, fsAfter := stC.1 }

/-- Python `str` whitespace (`\s`, `.strip()`), ASCII part: space, tab,
newline, carriage return, vertical tab, form feed.  (The Unicode whitespace
Python also accepts plays no role in the markup handled here.) -/
def pyIsSpace (c : Char) : Bool :=
  c = ' ' || c = '\t' || c = '\n' || c = '\r' ||
    c = Char.ofNat 11 || c = Char.ofNat 12

/-- Python `str.strip()`: drop leading and trailing whitespace. -/
def pyStrip (l : List Char) : List Char :=
  ((l.dropWhile pyIsSpace).reverse.dropWhile pyIsSpace).reverse

/-- Split at the first occurrence of `pat`: `some (before, after)` with the
input equal to `before ++ pat ++ after`, or `none` when `pat` does not
occur.  This is the one search primitive all the regex models build on. -/
def findSplit (pat : List Char) : List Char → Option (List Char × List Char)
  | [] => if pat.isEmpty then some ([], []) else none
  | c :: cs =>
    if pat.isPrefixOf (c :: cs) then some ([], (c :: cs).drop pat.length)
    else
      match findSplit pat cs with
      | some (b, a) => some (c :: b, a)
      | none => none

/-- `re.sub(r'<[^>]+>', '', ...)`: delete every maximal `<` … `>` span with
at least one non-`>` character inside.  Fuel is the input length, enough
because every step consumes at least one character. -/
def stripTagsAux : Nat → List Char → List Char
  | 0, l => l
  | _ + 1, [] => []
  | fuel + 1, c :: rest =>
    if c = '<' then
      let run := rest.takeWhile (fun x => x != '>')
      if 0 < run.length && run.length < rest.length then
        stripTagsAux fuel (rest.drop (run.length + 1))
      else c :: stripTagsAux fuel rest
    else c :: stripTagsAux fuel rest

/-- Tag removal at full fuel. -/
def stripTags (l : List Char) : List Char := stripTagsAux l.length l

/-- `re.sub(r'\s+', ' ', ...)`: replace each maximal whitespace run with a
single space. -/
def collapseWsAux : Nat → List Char → List Char
  | 0, l => l
  | _ + 1, [] => []
  | fuel + 1, c :: rest =>
    if pyIsSpace c then ' ' :: collapseWsAux fuel (rest.dropWhile pyIsSpace)
    else c :: collapseWsAux fuel rest

/-- Whitespace collapsing at full fuel. -/
def collapseWs (l : List Char) : List Char := collapseWsAux l.length l

/-- `html.unescape`, restricted to the five predefined entities (named with
a required semicolon).  The full HTML5 named-entity table is not modelled;
every concrete artifact content a theorem below evaluates contains no
ampersand, so the restriction is inert there. -/
def htmlUnescapeAux : Nat → List Char → List Char
  | 0, l => l
  | _ + 1, [] => []
  | fuel + 1, c :: rest =>
    if c = '&' then
      if ("amp;".data).isPrefixOf rest then '&' :: htmlUnescapeAux fuel (rest.drop 4)
      else if ("lt;".data).isPrefixOf rest then '<' :: htmlUnescapeAux fuel (rest.drop 3)
      else if ("gt;".data).isPrefixOf rest then '>' :: htmlUnescapeAux fuel (rest.drop 3)
      else if ("quot;".data).isPrefixOf rest then '"' :: htmlUnescapeAux fuel (rest.drop 5)
      else if ("#39;".data).isPrefixOf rest then
        Char.ofNat 39 :: htmlUnescapeAux fuel (rest.drop 4)
      else c :: htmlUnescapeAux fuel rest
    else c :: htmlUnescapeAux fuel rest

/-- Entity unescaping at full fuel. -/
def htmlUnescape (l : List Char) : List Char := htmlUnescapeAux l.length l

/-- Literal head of the session-link pattern, before the captured id. -/
def openLinkLit : List Char := "<a href='#msg-session-".data

/-- Literal the attribute run must end with, just before its closing `>`. -/
def classLit : List Char := "class='session-link'".data

/-- Closing anchor tag, the lazy end of the link-content capture. -/
def closeALit : List Char := "</a>".data

/-- Opening tag of the title block. -/
def titleOpenLit : List Char := "<div class='session-link-title'>".data

/-- Closing tag of the title block. -/
def closeDivLit : List Char := "</div>".data

/-- Start-timestamp attribute head, including its opening double quote. -/
def tsStartLit : List Char := "data-timestamp=\"".data

/-- End-timestamp attribute head, including its opening double quote. -/
def tsEndLit : List Char := "data-timestamp-end=\"".data

/-- Literal of the message-count pattern. -/
def msgLit : List Char := "messages".data

/-- Literal head of the token-usage pattern. -/
def tokenLit : List Char := "Token usage".data

/-- Opening tag of the preview block. -/
def preOpenLit : List Char := "<pre class='session-preview'>".data

/-- Closing tag of the preview block. -/
def closePreLit : List Char := "</pre>".data

/-- One attempt of the session-link pattern at text following
`openLinkLit`: a nonempty run of non-quote characters is the id (`[^']+`
closed by `'`), then a run of non-`>` characters that must end with
`classLit` before its closing `>` (`[^>]*class='session-link'>` — the
literal holds the only `>` of the span, so the match is forced), then the
lazy content capture up to the first `</a>` (DOTALL).  Returns
`some (id, content, remainder-after-match)`. -/
def linkAttempt (after : List Char) :
    Option (List Char × List Char × List Char) :=
  let sid := after.takeWhile (fun c => c != Char.ofNat 39)
  if sid.length = 0 || after.length ≤ sid.length then none
  else
    let rest2 := after.drop (sid.length + 1)
    let run := rest2.takeWhile (fun c => c != '>')
    if run.length < rest2.length && classLit.isSuffixOf run then
      match findSplit closeALit (rest2.drop (run.length + 1)) with
      | some (content, rem) => some (sid, content, rem)
      | none => none
    else none

/-- `re.findall` of the session-link pattern: scan left to right; a failed
attempt resumes right after the occurrence of `openLinkLit` that started it
(the literal starts with the only `<` it holds, so no occurrence hides
inside another), a successful one resumes after the matched text. -/
def findSessionLinksAux : Nat → List Char → List (List Char × List Char)
  | 0, _ => []
  | fuel + 1, s =>
    match findSplit openLinkLit s with
    | none => []
    | some (_, after) =>
      match linkAttempt after with
      | some (sid, content, rem) => (sid, content) :: findSessionLinksAux fuel rem
      | none => findSessionLinksAux fuel after

/-- All session-link matches of an aggregate artifact's content. -/
def findSessionLinks (s : List Char) : List (List Char × List Char) :=
  findSessionLinksAux s.length s

/-- Title search
(`<div class='session-link-title'>\s*(.*?)\s*</div>`, DOTALL): the capture
is the text between the first opening tag and the first `</div>` after it,
with the surrounding whitespace the `\s*` arms absorb stripped (the code
strips the group again, so the composed value is the stripped text). -/
def titleSearch (lc : List Char) : Option (List Char) :=
  match findSplit titleOpenLit lc with
  | none => none
  | some (_, afterT) =>
    match findSplit closeDivLit afterT with
    | none => none
    | some (between, _) => some (pyStrip between)

/-- Continuation of the timestamp pattern after the start value: the lazy
`.*?` (no DOTALL, so it cannot cross a newline) extends to successive
`tsEndLit` occurrences until one is followed by a nonempty non-quote run
closed by `"`; a newline in any gap fails the whole attempt. -/
def tsEndScan : Nat → List Char → Option (List Char)
  | 0, _ => none
  | fuel + 1, rest3 =>
    match findSplit tsEndLit rest3 with
    | none => none
    | some (gap, afterE) =>
      if gap.contains '\n' then none
      else
        let run2 := afterE.takeWhile (fun c => c != '"')
        if 0 < run2.length && run2.length < afterE.length then some run2
        else tsEndScan fuel afterE

/-- Timestamp search
(`data-timestamp="([^"]+)".*?data-timestamp-end="([^"]+)"`, no DOTALL):
try each `tsStartLit` occurrence left to right; at each, the first capture
is the maximal nonempty non-quote run closed by `"`, then `tsEndScan` must
find the end value without crossing a newline. -/
def tsStartScan : Nat → List Char → Option (List Char × List Char)
  | 0, _ => none
  | fuel + 1, s =>
    match findSplit tsStartLit s with
    | none => none
    | some (_, rest2) =>
      let run := rest2.takeWhile (fun c => c != '"')
      if 0 < run.length && run.length < rest2.length then
        match tsEndScan rest2.length (rest2.drop (run.length + 1)) with
        | some run2 => some (run, run2)
        | none => tsStartScan fuel rest2
      else tsStartScan fuel rest2

/-- Both timestamp captures, or `none`. -/
def tsSearch (lc : List Char) : Option (List Char × List Char) :=
  tsStartScan lc.length lc

/-- Message-count search (`(\d+)\s*messages`): the leftmost digit run that,
after optional whitespace, is followed by the literal `messages`. -/
def msgScan : List Char → Option (List Char)
  | [] => none
  | c :: cs =>
    if c.isDigit then
      let run := (c :: cs).takeWhile Char.isDigit
      let rest := ((c :: cs).dropWhile Char.isDigit).dropWhile pyIsSpace
      if msgLit.isPrefixOf rest then some run else msgScan cs
    else msgScan cs

/-- Python `int()` of a digit run. -/
def digitsToNat (l : List Char) : Nat :=
  l.foldl (fun a c => a * 10 + (c.toNat - 48)) 0

/-- Token-usage search (`Token usage[^<]+`, whole match kept): the leftmost
occurrence of the literal followed by at least one non-`<` character, the
maximal such run appended. -/
def tokenScanAux : Nat → List Char → Option (List Char)
  | 0, _ => none
  | fuel + 1, s =>
    match findSplit tokenLit s with
    | none => none
    | some (_, rest) =>
      let run := rest.takeWhile (fun c => c != '<')
      if 0 < run.length then some (tokenLit ++ run) else tokenScanAux fuel rest

/-- Token-usage search at full fuel. -/
def tokenSearch (lc : List Char) : Option (List Char) :=
  tokenScanAux lc.length lc

/-- Preview search (`<pre class='session-preview'>(.*?)</pre>`, DOTALL):
the text between the first opening tag and the first `</pre>` after it. -/
def previewSearch (lc : List Char) : Option (List Char) :=
  match findSplit preOpenLit lc with
  | none => none
  | some (_, afterP) =>
    match findSplit closePreLit afterP with
    | none => none
    | some (content, _) => some content

/-- The `SessionInfo` record of the source, sizes in bytes. -/
structure SessionInfo where
  session_id : String
  title : String
  timestamp_start : String
  timestamp_end : String
  messages : Nat
  tokens : String
  preview : String
  file_path : Option String
  jsonl_size : Nat
  html_size : Nat
  project_folder : String
deriving DecidableEq

/-- Build one `SessionInfo` from a matched link block, as the loop body of
`parse_sessions_from_combined` does: every sub-field is searched for
independently and defaults when absent (title to the first eight id
characters, timestamps to empty strings, message count to zero, token text
and preview to empty strings); the title is tag-stripped, re-stripped and
whitespace-collapsed; file sizes come from a direct stat of the directory
listing, and the artifact path is `<project>/<session file>` when that file
exists. -/
def mkSessionInfo (projFolder : String) (dir : List FEntry)
    (sid lc : List Char) : SessionInfo :=
  let sidS : String := ⟨sid⟩
  let title1 := match titleSearch lc with
    | some t => t
    | none => sid.take 8
  let titleS : String := ⟨collapseWs (pyStrip (stripTags title1))⟩
  let ts := match tsSearch lc with
    | some (a, b) => (String.mk a, String.mk b)
    | none => ("", "")
  let msgs := match msgScan lc with
    | some run => digitsToNat run
    | none => 0
  let tok := match tokenSearch lc with
    | some t => String.mk t
    | none => ""
  let prev := match previewSearch lc with
    | some p => String.mk (htmlUnescape (p.take 200))
    | none => ""
  let sessionName := "session-" ++ sidS ++ ".html"
  let htmlE := lookupEntry dir sessionName
  { session_id := sidS
    title := titleS
    timestamp_start := ts.1
    timestamp_end := ts.2
    messages := msgs
    tokens := tok
    preview := prev
    file_path := match htmlE with
      | some _ => some (projFolder ++ "/" ++ sessionName)
      | none => none
    jsonl_size := match lookupEntry dir (sidS ++ ".jsonl") with
      | some e => e.fsize
      | none => 0
    html_size := match htmlE with
      | some e => e.fsize
      | none => 0
    project_folder := projFolder }

/-- `parse_sessions_from_combined`, given the aggregate artifact's decoded
content, the listing of its directory (for the size stats) and the project
folder name: one record per link-pattern match, in match order.  (The
source's early return when the artifact file is absent is the caller's
concern; the content is passed here directly.) -/
def parse_sessions_from_combined (projFolder : String) (dir : List FEntry)
    (content : String) : List SessionInfo :=
  (findSessionLinks content.data).map (fun pr => mkSessionInfo projFolder dir pr.1 pr.2)

set_option maxRecDepth 10000

/-- A project whose shard is fresher than nothing: the session artifact is
newer than the shard, but the aggregate artifact is older. -/
def fsFreshArtifactOldCombined : FS :=
  [⟨"p", [⟨"s.jsonl", 10, 0⟩, ⟨"session-s.html", 20, 0⟩,
          ⟨"combined_transcripts.html", 5, 0⟩]⟩]

/-- A project holding a single shard and nothing else. -/
def fsLoneShard : FS := [⟨"p", [⟨"s.jsonl", 10, 0⟩]⟩]

/-- A well-formed 36-character session id. -/
def sidOk : String := "aaaaaaaa-bbbb-cccc-dddd-eeeeffff0000"

/-- 36 characters of the class followed by a trailing newline (37 in all). -/
def sidNl : String := "000000000000000000000000000000000000\n"

/-- 36 uppercase hex digits. -/
def sidUpper : String := "AAAAAAAAAAAAAAAAAAAAAAAAAAAAAAAAAAAA"

/-- A project holding `sidOk`'s shard and the aggregate artifact. -/
def fsShardAndCombined : FS :=
  [⟨"p", [⟨sidOk ++ ".jsonl", 1, 2⟩, ⟨"combined_transcripts.html", 1, 2⟩]⟩]

/-- A project holding only the aggregate artifact. -/
def fsOnlyCombined : FS := [⟨"p", [⟨"combined_transcripts.html", 1, 2⟩]⟩]

/-- A project holding only `sidOk`'s shard. -/
def fsOnlyShard : FS := [⟨"p", [⟨sidOk ++ ".jsonl", 1, 2⟩]⟩]

/-- Directory listing for the concrete parse runs: the shard and session
artifact of session `abc123`, with sizes 42 and 7. -/
def dirAbc : List FEntry :=
  [⟨"abc123.jsonl", 0, 42⟩, ⟨"session-abc123.html", 0, 7⟩]

/-- Link-block content in which every sub-field is present and well
formed. -/
def wfBlock : List Char :=
  titleOpenLit ++ "My Title".data ++ closeDivLit ++
    tsStartLit ++ "2024-01-01".data ++ ['"', ' '] ++
    tsEndLit ++ "2024-01-02".data ++ ['"'] ++
    " 5 messages Token usage 100".data ++
    preOpenLit ++ "hello".data ++ closePreLit

/-- An aggregate artifact content holding exactly one well-formed link
block for session `abc123`. -/
def wfContent : String :=
  ⟨openLinkLit ++ "abc123".data ++ [Char.ofNat 39, ' '] ++ classLit ++ ['>'] ++
    wfBlock ++ closeALit⟩

/-- Link-block content with every sub-field missing. -/
def mfBlock : List Char := "nothing here".data

/-- An aggregate artifact content holding one link block for session
`deadbeef` in which every sub-field is missing. -/
def mfContent : String :=
  ⟨openLinkLit ++ "deadbeef".data ++ [Char.ofNat 39, ' '] ++ classLit ++ ['>'] ++
    mfBlock ++ closeALit⟩

/-- Membership test on accumulated (directory, name) pairs agrees with list
membership. -/
theorem listHasPair_iff (l : List (String × String)) (d f : String) :
    listHasPair l d f = true ↔ (d, f) ∈ l := by
  unfold listHasPair
  rw [List.any_eq_true]
  constructor
  · rintro ⟨⟨a, b⟩, hmem, hp⟩
    simp only [Bool.and_eq_true, decide_eq_true_eq] at hp
    obtain ⟨rfl, rfl⟩ := hp
    exact hmem
  · intro hmem
    exact ⟨(d, f), hmem, by simp⟩

/-- One step of the shard loop, when the pair it could append is not yet
accumulated: append exactly when the code's staleness condition holds. -/
theorem outdatedStep_notmem (all : List FEntry) (d : String)
    (acc : List (String × String)) (e : FEntry)
    (hna : (d, e.fname) ∉ acc) :
    outdatedStep all d acc e =
      if codeStale all e = true then acc ++ [(d, e.fname)] else acc := by
  have hlp : listHasPair acc d e.fname = false := by
    rw [← Bool.not_eq_true, listHasPair_iff]
    exact hna
  unfold outdatedStep codeStale
  cases hq : (strEndsWith e.fname ".jsonl" && !(strStartsWith e.fname "agent-")) with
  | false => simp [hq]
  | true =>
    simp only [hq, Bool.true_and, if_true]
    cases hsm : fileMtime? all (sessionHtmlName e.fname) with
    | none => simp
    | some hm =>
      by_cases hlt : hm < e.mtime
      · simp [hlt]
      · simp only [if_neg hlt]
        cases hcm : fileMtime? all combinedName with
        | none => simp
        | some cm =>
          by_cases hclt : cm < e.mtime
          · simp [hclt, hlp]
          · simp [hclt]

/-- The shard loop over one directory listing, with distinct file names and
an accumulator that cannot collide with the directory's pairs, is the
filter of the code's staleness condition. -/
theorem innerFold_eq (all : List FEntry) (d : String) (l : List FEntry) :
    ∀ (acc : List (String × String)),
      (l.map FEntry.fname).Nodup →
      (∀ pr ∈ acc, pr.1 ≠ d ∨ pr.2 ∉ l.map FEntry.fname) →
      l.foldl (outdatedStep all d) acc =
        acc ++ (l.filter (codeStale all)).map (fun e => (d, e.fname)) := by
  induction l with
  | nil => intro acc _ _; simp
  | cons e l' ih =>
    intro acc hnd hinv
    rw [List.foldl_cons]
    have hna : (d, e.fname) ∉ acc := by
      intro hmem
      rcases hinv _ hmem with h | h
      · exact h rfl
      · exact h (by simp)
    rw [outdatedStep_notmem all d acc e hna]
    rw [List.map_cons, List.nodup_cons] at hnd
    by_cases hcs : codeStale all e = true
    · rw [if_pos hcs]
      rw [ih (acc ++ [(d, e.fname)]) hnd.2 ?_]
      · simp [List.filter_cons, hcs]
      · intro pr hpr
        rcases List.mem_append.mp hpr with h | h
        · rcases hinv pr h with h2 | h2
          · exact Or.inl h2
          · exact Or.inr (fun hm => h2 (by simp [hm]))
        · simp only [List.mem_singleton] at h
          subst h
          exact Or.inr hnd.1
    · rw [if_neg hcs]
      rw [ih acc hnd.2 ?_]
      · simp [List.filter_cons, hcs]
      · intro pr hpr
        rcases hinv pr hpr with h2 | h2
        · exact Or.inl h2
        · exact Or.inr (fun hm => h2 (by simp [hm]))

/-- With distinct directory names and per-directory distinct file names,
the whole scan is the bind of the per-directory filters. -/
theorem find_outdated_eq_bind (fs : FS)
    (hd : (fs.map ProjDir.dname).Nodup)
    (he : ∀ p ∈ fs, (p.entries.map FEntry.fname).Nodup) :
    find_outdated_sessions fs =
      fs.flatMap (fun p => (p.entries.filter (codeStale p.entries)).map
        (fun e => (p.dname, e.fname))) := by
  suffices h : ∀ (l : FS) (acc : List (String × String)),
      (l.map ProjDir.dname).Nodup →
      (∀ p ∈ l, (p.entries.map FEntry.fname).Nodup) →
      (∀ pr ∈ acc, pr.1 ∉ l.map ProjDir.dname) →
      l.foldl (fun acc p => p.entries.foldl (outdatedStep p.entries p.dname) acc) acc =
        acc ++ l.flatMap (fun p => (p.entries.filter (codeStale p.entries)).map
          (fun e => (p.dname, e.fname))) by
    have := h fs [] hd he (by simp)
    simpa [find_outdated_sessions] using this
  intro l
  induction l with
  | nil => intro acc _ _ _; simp
  | cons p l' ih =>
    intro acc hnd hne hinv
    rw [List.foldl_cons]
    rw [innerFold_eq p.entries p.dname p.entries acc (hne p (by simp)) ?_]
    · rw [List.map_cons, List.nodup_cons] at hnd
      rw [ih (acc ++ _) hnd.2 (fun q hq => hne q (by simp [hq])) ?_]
      · simp [List.flatMap_cons, List.append_assoc]
      · intro pr hpr
        rcases List.mem_append.mp hpr with h | h
        · intro hm
          simp only [List.map_cons, List.mem_cons] at *
          exact hinv pr h (Or.inr hm)
        · simp only [List.mem_map] at h
          obtain ⟨e, _, rfl⟩ := h
          exact fun hm => hnd.1 hm
    · intro pr hpr
      refine Or.inl (fun h => hinv pr hpr ?_)
      simp [h]

/-- The code's per-shard condition, spelled out: a qualifying shard name
(ends in `.jsonl`, not agent-prefixed), and the session artifact absent or
older than the shard, or the aggregate artifact present and older than the
shard. -/
theorem codeStale_iff (es : List FEntry) (e : FEntry) :
    codeStale es e = true ↔
      (strEndsWith e.fname ".jsonl" = true ∧
       strStartsWith e.fname "agent-" = false ∧
       (fileMtime? es (sessionHtmlName e.fname) = none ∨
        (∃ hm, fileMtime? es (sessionHtmlName e.fname) = some hm ∧ hm < e.mtime) ∨
        (∃ cm, fileMtime? es combinedName = some cm ∧ cm < e.mtime))) := by
  unfold codeStale
  cases h1 : strEndsWith e.fname ".jsonl" <;>
    cases h2 : strStartsWith e.fname "agent-" <;> simp
  all_goals cases h3 : fileMtime? es (sessionHtmlName e.fname) with
  | none => simp
  | some hm =>
    by_cases h4 : hm < e.mtime
    · simp [h4]
    · simp only [if_neg h4, Option.some.injEq]
      cases h5 : fileMtime? es combinedName with
      | none => simp [h4]
      | some cm =>
        by_cases h6 : cm < e.mtime
        · simp [h6, h4]
        · simp [h6, h4]

/-- C1, amended.  Over a well-formed tree (no two directories of one name,
no two files of one name in a directory), a pair (directory, shard name)
is flagged by `find_outdated_sessions` iff the directory holds that
non-agent `.jsonl` shard and its session artifact is absent or older than
the shard — or the directory's aggregate artifact exists and is older than
the shard, the branch the original claim omits. -/
theorem staleness_membership_iff (fs : FS)
    (hd : (fs.map ProjDir.dname).Nodup)
    (he : ∀ p ∈ fs, (p.entries.map FEntry.fname).Nodup)
    (d f : String) :
    (d, f) ∈ find_outdated_sessions fs ↔
      ∃ p ∈ fs, p.dname = d ∧ ∃ e ∈ p.entries, e.fname = f ∧
        strEndsWith e.fname ".jsonl" = true ∧
        strStartsWith e.fname "agent-" = false ∧
        (fileMtime? p.entries (sessionHtmlName e.fname) = none ∨
         (∃ hm, fileMtime? p.entries (sessionHtmlName e.fname) = some hm ∧
            hm < e.mtime) ∨
         (∃ cm, fileMtime? p.entries combinedName = some cm ∧ cm < e.mtime)) := by
  rw [find_outdated_eq_bind fs hd he, List.mem_flatMap]
  constructor
  · rintro ⟨p, hp, hmem⟩
    rw [List.mem_map] at hmem
    obtain ⟨e, hef, heq⟩ := hmem
    rw [List.mem_filter] at hef
    obtain ⟨hd1, hf1⟩ := Prod.mk.injEq .. ▸ heq
    obtain ⟨q1, q2, q3⟩ := (codeStale_iff p.entries e).mp hef.2
    exact ⟨p, hp, hd1, e, hef.1, hf1, q1, q2, q3⟩
  · rintro ⟨p, hp, rfl, e, hee, rfl, q1, q2, q3⟩
    refine ⟨p, hp, ?_⟩
    rw [List.mem_map]
    exact ⟨e, List.mem_filter.mpr ⟨hee, (codeStale_iff p.entries e).mpr ⟨q1, q2, q3⟩⟩, rfl⟩

/-- Witness for the amended C1, at the counterexample tree: the flagged
shard satisfies the amended condition through its third disjunct. -/
theorem staleness_membership_iff_witness :
    (("p", "s.jsonl") ∈ find_outdated_sessions fsFreshArtifactOldCombined) ↔
      ∃ p ∈ fsFreshArtifactOldCombined, p.dname = "p" ∧
        ∃ e ∈ p.entries, e.fname = "s.jsonl" ∧
          strEndsWith e.fname ".jsonl" = true ∧
          strStartsWith e.fname "agent-" = false ∧
          (fileMtime? p.entries (sessionHtmlName e.fname) = none ∨
           (∃ hm, fileMtime? p.entries (sessionHtmlName e.fname) = some hm ∧
              hm < e.mtime) ∨
           (∃ cm, fileMtime? p.entries combinedName = some cm ∧ cm < e.mtime)) :=
  staleness_membership_iff fsFreshArtifactOldCombined (by decide) (by decide)
    "p" "s.jsonl"

/-- C2.  The re-entrance guard of `regenerate_logs`: with the flag already
set the call is a skipped no-op (no error outcome, no deletion, no
subprocess, tree untouched, flag left as the owning run's); otherwise the
body runs with the flag set and the flag is false again on every exit path
— exit code zero or nonzero, timeout, raised exception, and the early
up-to-date return alike, the subprocess outcome `sub` covering them all. -/
theorem regen_guard_and_always_release (fs : FS) (forceClear : Bool)
    (sub : SubOutcome) :
    ((regenerate_logs fs true forceClear sub).outcome = .skipped ∧
     (regenerate_logs fs true forceClear sub).invokedCmd = none ∧
     (regenerate_logs fs true forceClear sub).deletedFiles = [] ∧
     (regenerate_logs fs true forceClear sub).fsAfter = fs) ∧
    ((regenerate_logs fs false forceClear sub).startedRun = true ∧
     (regenerate_logs fs false forceClear sub).inProgressAfter = false) := by
  constructor
  · simp [regenerate_logs]
  · unfold regenerate_logs
    simp only [Bool.false_eq_true, if_false]
    split <;> simp

/-- C3.  With nothing stale and `force_clear` false, `regenerate_logs`
takes the all-up-to-date early return (the `{updated: 0}` outcome of the
spec): no subprocess is invoked and no file is deleted. -/
theorem regen_empty_early_return (fs : FS) (sub : SubOutcome)
    (h : find_outdated_sessions fs = []) :
    (regenerate_logs fs false false sub).outcome = .upToDate ∧
    (regenerate_logs fs false false sub).invokedCmd = none ∧
    (regenerate_logs fs false false sub).deletedFiles = [] ∧
    (regenerate_logs fs false false sub).fsAfter = fs := by
  unfold regenerate_logs
  simp [h]

/-- Witness for C3 at the empty project root. -/
theorem regen_empty_early_return_witness :
    (regenerate_logs [] false false .timedOut).outcome = .upToDate ∧
    (regenerate_logs [] false false .timedOut).invokedCmd = none ∧
    (regenerate_logs [] false false .timedOut).deletedFiles = [] ∧
    (regenerate_logs [] false false .timedOut).fsAfter = [] :=
  regen_empty_early_return [] .timedOut rfl

/-- C4.  Whenever `regenerate_logs` reaches the subprocess invocation, the
command carries `--clear-html` exactly when `force_clear` was requested or
the cache-bug scan found a project with a `*.jsonl` file but no aggregate
artifact. -/
theorem regen_clear_flag_iff (fs : FS) (forceClear : Bool) (sub : SubOutcome)
    (c : List String)
    (h : (regenerate_logs fs false forceClear sub).invokedCmd = some c) :
    "--clear-html" ∈ c ↔ (forceClear = true ∨ cacheBug fs = true) := by
  unfold regenerate_logs at h
  simp only [Bool.false_eq_true, if_false] at h
  by_cases hc : ((find_outdated_sessions fs).isEmpty && !forceClear) = true
  · rw [if_pos hc] at h
    exact absurd h (by simp)
  · rw [if_neg hc] at h
    simp only [RegenResult.mk.injEq] at h
    cases hb : cacheBug fs <;> cases hf : forceClear <;>
      simp [hb, hf] at h <;> subst h <;> simp

/-- Witness for C4: a lone shard with no artifacts is stale and its project
triggers the cache-bug condition, so the flag is passed. -/
theorem regen_clear_flag_iff_witness :
    "--clear-html" ∈ ["uvx", "claude-code-log@latest", "--clear-html"] ↔
      (false = true ∨ cacheBug fsLoneShard = true) :=
  regen_clear_flag_iff fsLoneShard false (.completed 0 "")
    ["uvx", "claude-code-log@latest", "--clear-html"] (by decide)

/-- C5.  A pending change that survived the debounce window but falls under
the rate limit is dropped: the watcher iteration performs no run, resets
the pending-change time to idle and leaves the last-regeneration time
unchanged; and, no fresh mtime increase arriving, no later iteration runs
in its place — the drop queues nothing. -/
theorem watcher_rate_limited_drop (st : WatcherState) (now m : Nat)
    (hm : m ≤ st.lastSourceMtime) (hc : 0 < st.lastChangeTime)
    (hd : DEBOUNCE_SECONDS ≤ now - st.lastChangeTime)
    (hr : now - st.lastRegenTime < MAX_REGEN_FREQUENCY) :
    (watcherStep st now m).2 = .idle ∧
    (watcherStep st now m).1.lastChangeTime = 0 ∧
    (watcherStep st now m).1.lastRegenTime = st.lastRegenTime ∧
    (watcherStep st now m).1.lastSourceMtime = st.lastSourceMtime ∧
    (∀ now2 m2, m2 ≤ st.lastSourceMtime →
      (watcherStep (watcherStep st now m).1 now2 m2).2 = .idle) := by
  have hnot : ¬ st.lastSourceMtime < m := not_lt.mpr hm
  have hstep : watcherStep st now m =
      ({ st with lastChangeTime := 0 }, .idle) := by
    unfold watcherStep
    simp only [if_neg hnot]
    rw [if_pos ⟨hc, hd⟩, if_pos hr]
  refine ⟨by rw [hstep], by rw [hstep], by rw [hstep], by rw [hstep], ?_⟩
  intro now2 m2 hm2
  rw [hstep]
  unfold watcherStep
  have hnot2 : ¬ ({ st with lastChangeTime := 0 } : WatcherState).lastSourceMtime < m2 :=
    not_lt.mpr hm2
  simp only [if_neg hnot2]
  rw [if_neg (by simp)]

/-- Witness for C5: change observed at 10, clock at 100, last run at 0 —
the 90 s quiet period passes the 60 s debounce but 100 s since the last
run is under the 300 s minimum, so the iteration and the next are idle. -/
theorem watcher_rate_limited_drop_witness :
    (watcherStep ⟨5, 10, 0⟩ 100 5).2 = .idle ∧
    (watcherStep ⟨5, 10, 0⟩ 100 5).1.lastChangeTime = 0 ∧
    (watcherStep ⟨5, 10, 0⟩ 100 5).1.lastRegenTime = 0 ∧
    (watcherStep ⟨5, 10, 0⟩ 100 5).1.lastSourceMtime = 5 ∧
    (watcherStep (watcherStep ⟨5, 10, 0⟩ 100 5).1 200 3).2 = .idle := by
  have h := watcher_rate_limited_drop ⟨5, 10, 0⟩ 100 5 (by decide) (by decide)
    (by decide) (by decide)
  exact ⟨h.1, h.2.1, h.2.2.1, h.2.2.2.1, h.2.2.2.2 200 3 (by decide)⟩

/-- Counterexample to C1 as stated: the shard `s.jsonl` is flagged although
its session artifact exists and is newer (mtime 20 against 10) — the
aggregate artifact being older (mtime 5) triggers the third branch of the
chain, which the claim's condition does not cover. -/
theorem staleness_iff_counterexample :
    find_outdated_sessions fsFreshArtifactOldCombined = [("p", "s.jsonl")] ∧
    specStale (⟨"p", [⟨"s.jsonl", 10, 0⟩, ⟨"session-s.html", 20, 0⟩,
        ⟨"combined_transcripts.html", 5, 0⟩]⟩ : ProjDir).entries
      ⟨"s.jsonl", 10, 0⟩ = false := by
  decide

/-- Counterexample to C7 as stated: a 37-character id ending in a newline
passes the code's regex (Python's `$` matches before a trailing newline)
though it is not 36 characters long, and 36 uppercase hex digits fail the
regex though they are 36 characters drawn from hex digits and hyphens. -/
theorem session_id_shape_counterexample :
    validate_session_id sidNl = true ∧ specSessionIdShape sidNl = false ∧
    validate_session_id sidUpper = false ∧ specSessionIdShape sidUpper = true := by
  decide

/-- Characterization of the `{36}` run of the validation regex. -/
theorem matchRun_some_iff (n : Nat) (l : List Char) (r : List Char) :
    matchRun n l = some r ↔
      n ≤ l.length ∧ (l.take n).all isLowerHexOrDash = true ∧ r = l.drop n := by
  induction n generalizing l r with
  | zero => simp [matchRun, eq_comm]
  | succ n ih =>
    cases l with
    | nil => simp [matchRun]
    | cons c cs =>
      by_cases hc : isLowerHexOrDash c = true
      · rw [matchRun, if_pos hc, ih]
        simp [hc, Nat.succ_le_succ_iff]
      · rw [matchRun, if_neg hc]
        simp [hc]

/-- Characterization of the Python `$` anchor. -/
theorem matchDollar_iff (l : List Char) :
    matchDollar l = true ↔ l = [] ∨ l = ['\n'] := by
  match l with
  | [] => simp [matchDollar]
  | [c] => simp [matchDollar]
  | a :: b :: t => simp [matchDollar]

/-- A string the validation regex accepts is 36 or 37 characters long. -/
theorem validate_length (s : String) (h : validate_session_id s = true) :
    s.data.length = 36 ∨ s.data.length = 37 := by
  unfold validate_session_id at h
  cases hm : matchRun 36 s.data with
  | none => rw [hm] at h; exact absurd h (by simp)
  | some r =>
    rw [hm] at h
    obtain ⟨hlen, _, hr⟩ := (matchRun_some_iff 36 s.data r).mp hm
    rcases (matchDollar_iff r).mp h with h1 | h1 <;> subst hr
    · left
      have := List.drop_eq_nil_iff.mp h1
      omega
    · right
      have h2 := congrArg List.length h1
      rw [List.length_drop] at h2
      simp only [List.length_singleton] at h2
      omega

/-- A string the validation regex accepts is nonempty. -/
theorem validate_ne_empty (s : String) (h : validate_session_id s = true) :
    s ≠ "" := by
  intro he
  subst he
  exact absurd h (by decide)

/-- Every character of a string the validation regex accepts is of the
class `[a-f0-9-]`, or is the trailing newline the `$` anchor admits. -/
theorem validate_chars (s : String) (h : validate_session_id s = true) :
    ∀ c ∈ s.data, isLowerHexOrDash c = true ∨ c = '\n' := by
  unfold validate_session_id at h
  cases hm : matchRun 36 s.data with
  | none => rw [hm] at h; exact absurd h (by simp)
  | some r =>
    rw [hm] at h
    obtain ⟨_, hall, hr⟩ := (matchRun_some_iff 36 s.data r).mp hm
    intro c hc
    rw [← List.take_append_drop 36 s.data] at hc
    rcases List.mem_append.mp hc with hc1 | hc1
    · exact Or.inl (List.all_eq_true.mp hall c hc1)
    · rcases (matchDollar_iff r).mp h with h1 | h1 <;> rw [← hr, h1] at hc1
      · exact absurd hc1 (List.not_mem_nil c)
      · rw [List.mem_singleton] at hc1
        exact Or.inr hc1

/-- C7, amended.  The code accepts a session id iff it is 36 characters
drawn from lowercase hex digits and hyphens, alone or followed by one
trailing newline (Python's `$` matching before a final newline); every
rejected id — and a missing one — draws an error response and leaves the
tree untouched with nothing removed. -/
theorem session_id_validation (fs : FS) (pf sid : String) :
    (validate_session_id sid = true ↔ amendedIdShape sid = true) ∧
    (validate_session_id sid = false →
      (delete_session fs pf sid).removed = [] ∧
      (delete_session fs pf sid).fsAfter = fs ∧
      ((delete_session fs pf sid).response = .errMissing ∨
       (delete_session fs pf sid).response = .errInvalidId)) := by
  constructor
  · unfold validate_session_id amendedIdShape
    cases hm : matchRun 36 sid.data with
    | none =>
      simp only [Bool.false_eq_true, false_iff]
      intro hcontra
      simp only [Bool.and_eq_true, Bool.or_eq_true, decide_eq_true_eq] at hcontra
      obtain ⟨hall, hlen⟩ := hcontra
      have h36 : 36 ≤ sid.data.length := by omega
      have : matchRun 36 sid.data = some (sid.data.drop 36) :=
        (matchRun_some_iff 36 sid.data _).mpr ⟨h36, hall, rfl⟩
      rw [hm] at this
      exact absurd this (by simp)
    | some r =>
      obtain ⟨hlen, hall, hr⟩ := (matchRun_some_iff 36 sid.data r).mp hm
      subst hr
      rw [matchDollar_iff]
      simp only [Bool.and_eq_true, Bool.or_eq_true, decide_eq_true_eq, hall,
        true_and]
      constructor
      · rintro (h1 | h1)
        · left
          have := List.drop_eq_nil_iff.mp h1
          omega
        · right
          have h2 := congrArg List.length h1
          rw [List.length_drop] at h2
          simp only [List.length_singleton] at h2
          constructor
          · omega
          · rw [h1]
      · rintro (h1 | ⟨h1, h2⟩)
        · left
          rw [List.drop_eq_nil_iff]
          omega
        · right
          exact h2
  · intro hv
    unfold delete_session
    by_cases h0 : (pf = "" || sid = "") = true
    · rw [if_pos h0]
      exact ⟨rfl, rfl, Or.inl rfl⟩
    · rw [if_neg h0, if_pos (by simp [hv])]
      exact ⟨rfl, rfl, Or.inr rfl⟩

/-- Witness for the amended C7: the newline-suffixed id is accepted and
fits the amended shape; the malformed id `not-a-uuid` is rejected with an
error and zero mutation of a one-project tree. -/
theorem session_id_validation_witness :
    (validate_session_id sidNl = true ↔ amendedIdShape sidNl = true) ∧
    ((delete_session fsOnlyCombined "proj" "not-a-uuid").removed = [] ∧
     (delete_session fsOnlyCombined "proj" "not-a-uuid").fsAfter = fsOnlyCombined ∧
     ((delete_session fsOnlyCombined "proj" "not-a-uuid").response = .errMissing ∨
      (delete_session fsOnlyCombined "proj" "not-a-uuid").response = .errInvalidId)) :=
  ⟨(session_id_validation fsOnlyCombined "proj" sidNl).1,
   (session_id_validation fsOnlyCombined "proj" "not-a-uuid").2 (by decide)⟩

/-- Appending characterwise: string append concatenates the character
lists. -/
theorem strData_append (a b : String) : (a ++ b).data = a.data ++ b.data := rfl

/-- Filtering a name out of a listing leaves lookups of other names
unchanged. -/
theorem lookupEntry_filter_ne (es : List FEntry) (n n2 : String) (h : n2 ≠ n) :
    lookupEntry (es.filter (fun e => e.fname ≠ n)) n2 = lookupEntry es n2 := by
  induction es with
  | nil => rfl
  | cons e es ih =>
    unfold lookupEntry at *
    rw [List.filter_cons]
    by_cases he : e.fname = n
    · have hne2 : e.fname ≠ n2 := fun hh => h (hh.symm.trans he)
      rw [if_neg (by simp [he]), ih, List.find?_cons_of_neg _ (by simp [hne2])]
    · rw [if_pos (by simp [he])]
      by_cases hn2 : e.fname = n2
      · rw [List.find?_cons_of_pos _ (by simp [hn2]),
          List.find?_cons_of_pos _ (by simp [hn2])]
      · rw [List.find?_cons_of_neg _ (by simp [hn2]),
          List.find?_cons_of_neg _ (by simp [hn2])]
        exact ih

/-- Filtering a name out of a listing makes its lookup fail. -/
theorem lookupEntry_filter_self (es : List FEntry) (n : String) :
    lookupEntry (es.filter (fun e => e.fname ≠ n)) n = none := by
  rw [lookupEntry, List.find?_eq_none]
  intro x hx
  rw [List.mem_filter] at hx
  simpa using hx.2

/-- Removing one file name leaves the presence of any other name
unchanged. -/
theorem fsHasFile_removeFile_ne (fs : FS) (d n d2 n2 : String) (h : n2 ≠ n) :
    fsHasFile (removeFile fs d n) d2 n2 = fsHasFile fs d2 n2 := by
  induction fs with
  | nil => rfl
  | cons p fs ih =>
    unfold fsHasFile removeFile at *
    simp only [List.map_cons, List.any_cons]
    rw [ih]
    congr 1
    by_cases hd : p.dname = d
    · rw [if_pos hd]
      dsimp only
      rw [lookupEntry_filter_ne p.entries n n2 h]
    · rw [if_neg hd]

/-- After `removeFile` the removed name is absent from the directory. -/
theorem fsHasFile_removeFile_self (fs : FS) (d n : String) :
    fsHasFile (removeFile fs d n) d n = false := by
  induction fs with
  | nil => rfl
  | cons p fs ih =>
    unfold fsHasFile removeFile at *
    simp only [List.map_cons, List.any_cons, ih, Bool.or_false]
    by_cases hd : p.dname = d
    · rw [if_pos hd]
      dsimp only
      rw [lookupEntry_filter_self]
      simp
    · rw [if_neg hd]
      simp [hd]

/-- The session-artifact name is never the shard name (their lengths differ
by seven). -/
theorem html_ne_jsonl (sid : String) :
    ("session-" ++ sid ++ ".html") ≠ (sid ++ ".jsonl") := by
  intro heq
  have hl := congrArg (fun t => t.data.length) heq
  simp only [strData_append, List.length_append] at hl
  have e1 : ("session-" : String).data.length = 8 := rfl
  have e2 : (".html" : String).data.length = 5 := rfl
  have e3 : (".jsonl" : String).data.length = 6 := rfl
  rw [e1, e2, e3] at hl
  omega

/-- A validated shard name is never the aggregate-artifact name. -/
theorem jsonl_ne_combined (sid : String) (h : validate_session_id sid = true) :
    (sid ++ ".jsonl") ≠ combinedName := by
  intro heq
  have hl := congrArg (fun t => t.data.length) heq
  simp only [strData_append, List.length_append] at hl
  have e3 : (".jsonl" : String).data.length = 6 := rfl
  have e4 : combinedName.data.length = 25 := rfl
  rw [e3, e4] at hl
  rcases validate_length sid h with h1 | h1 <;> omega

/-- A validated session-artifact name is never the aggregate-artifact
name. -/
theorem html_ne_combined (sid : String) (h : validate_session_id sid = true) :
    ("session-" ++ sid ++ ".html") ≠ combinedName := by
  intro heq
  have hl := congrArg (fun t => t.data.length) heq
  simp only [strData_append, List.length_append] at hl
  have e1 : ("session-" : String).data.length = 8 := rfl
  have e2 : (".html" : String).data.length = 5 := rfl
  have e4 : combinedName.data.length = 25 := rfl
  rw [e1, e2, e4] at hl
  rcases validate_length sid h with h1 | h1 <;> omega

/-- Normal form of the delete handler's main path: the guards passed, the
three presence tests all read against the incoming tree (legitimate since
the three names are pairwise distinct), deletions and the reported list
written out. -/
theorem delete_session_main (fs : FS) (pf sid : String)
    (h0 : (pf = "" || sid = "") = false)
    (hv : validate_session_id sid = true)
    (hex : fs.any (fun p => p.dname = pf) = true) :
    delete_session fs pf sid =
      { response :=
          if ((if fsHasFile fs pf (sid ++ ".jsonl") then [sid ++ ".jsonl"] else []) ++
              (if fsHasFile fs pf ("session-" ++ sid ++ ".html") then
                ["session-" ++ sid ++ ".html"] else [])).isEmpty then
            .errNothing
          else
            .ok ((if fsHasFile fs pf (sid ++ ".jsonl") then [sid ++ ".jsonl"] else []) ++
              (if fsHasFile fs pf ("session-" ++ sid ++ ".html") then
                ["session-" ++ sid ++ ".html"] else [])),
        removed :=
          (if fsHasFile fs pf (sid ++ ".jsonl") then [(pf, sid ++ ".jsonl")] else []) ++
          (if fsHasFile fs pf ("session-" ++ sid ++ ".html") then
            [(pf, "session-" ++ sid ++ ".html")] else []) ++
          (if fsHasFile fs pf combinedName then [(pf, combinedName)] else []),
        fsAfter :=
          (fun fs2 => if fsHasFile fs pf combinedName then
              removeFile fs2 pf combinedName else fs2)
          ((fun fs1 => if fsHasFile fs pf ("session-" ++ sid ++ ".html") then
              removeFile fs1 pf ("session-" ++ sid ++ ".html") else fs1)
            (if fsHasFile fs pf (sid ++ ".jsonl") then
              removeFile fs pf (sid ++ ".jsonl") else fs)) } := by
  have hj := html_ne_jsonl sid
  have hcj := Ne.symm (jsonl_ne_combined sid hv)
  have hch := Ne.symm (html_ne_combined sid hv)
  have a1 : ∀ g : FS, fsHasFile (removeFile g pf (sid ++ ".jsonl")) pf
      ("session-" ++ sid ++ ".html") = fsHasFile g pf ("session-" ++ sid ++ ".html") :=
    fun g => fsHasFile_removeFile_ne g pf _ pf _ hj
  have a2 : ∀ g : FS, fsHasFile (removeFile g pf (sid ++ ".jsonl")) pf combinedName =
      fsHasFile g pf combinedName :=
    fun g => fsHasFile_removeFile_ne g pf _ pf _ hcj
  have a3 : ∀ g : FS, fsHasFile (removeFile g pf ("session-" ++ sid ++ ".html")) pf
      combinedName = fsHasFile g pf combinedName :=
    fun g => fsHasFile_removeFile_ne g pf _ pf _ hch
  unfold delete_session deleteIfPresent
  rw [if_neg (by simp [h0]), if_neg (by simp [hv]), if_neg (by simp [hex])]
  by_cases hb1 : fsHasFile fs pf (sid ++ ".jsonl") = true <;>
    by_cases hb2 : fsHasFile fs pf ("session-" ++ sid ++ ".html") = true <;>
      by_cases hb3 : fsHasFile fs pf combinedName = true <;>
        simp only [Bool.not_eq_true] at hb1 hb2 hb3 <;>
          simp [hb1, hb2, hb3, a1, a2, a3]

/-- Membership in a conditional singleton pins the element down. -/
theorem mem_ite_singleton {α : Type} (c : Prop) [Decidable c] (x pr : α)
    (h : pr ∈ (if c then [x] else [])) : pr = x := by
  split at h
  · simpa using h
  · exact absurd h (List.not_mem_nil pr)

/-- C6.  A validated delete request against an existing project removes the
project's aggregate artifact whenever it is present — no assumption on the
named session's shard or artifact existing. -/
theorem delete_invalidates_aggregate (fs : FS) (pf sid : String)
    (hv : validate_session_id sid = true)
    (hpf : pf ≠ "")
    (hex : fs.any (fun p => p.dname = pf) = true)
    (hcomb : fsHasFile fs pf combinedName = true) :
    (pf, combinedName) ∈ (delete_session fs pf sid).removed ∧
    fsHasFile (delete_session fs pf sid).fsAfter pf combinedName = false := by
  have h0 : (pf = "" || sid = "") = false := by
    simp [hpf, validate_ne_empty sid hv]
  rw [delete_session_main fs pf sid h0 hv hex]
  constructor
  · simp [hcomb]
  · simp only [hcomb, if_true]
    exact fsHasFile_removeFile_self _ pf combinedName

/-- Witness for C6: the project holds only its aggregate artifact — the
named session has neither shard nor artifact — yet the aggregate is
removed. -/
theorem delete_invalidates_aggregate_witness :
    ("p", combinedName) ∈ (delete_session fsOnlyCombined "p" sidOk).removed ∧
    fsHasFile (delete_session fsOnlyCombined "p" sidOk).fsAfter "p"
      combinedName = false :=
  delete_invalidates_aggregate fsOnlyCombined "p" sidOk (by decide) (by decide)
    (by decide) (by decide)

/-- C8, amended.  The reported deleted list is exactly the shard and
session-artifact files removed — the aggregate artifact, though unlinked
when present, is never reported; and when neither the shard nor the
session artifact existed the response is the nothing-to-delete error, even
if the aggregate artifact was removed. -/
theorem deleted_list_reports_shard_files (fs : FS) (pf sid : String) :
    (∀ l, (delete_session fs pf sid).response = .ok l →
       l = ((delete_session fs pf sid).removed.filter
             (fun pr => pr.2 ≠ combinedName)).map Prod.snd) ∧
    (validate_session_id sid = true → pf ≠ "" →
     fs.any (fun p => p.dname = pf) = true →
     fsHasFile fs pf (sid ++ ".jsonl") = false →
     fsHasFile fs pf ("session-" ++ sid ++ ".html") = false →
     (delete_session fs pf sid).response = .errNothing) := by
  constructor
  · intro l hl
    by_cases h0 : (pf = "" || sid = "") = true
    · have he : delete_session fs pf sid = ⟨.errMissing, [], fs⟩ := by
        unfold delete_session
        rw [if_pos h0]
      rw [he] at hl
      exact absurd hl (by simp)
    · have h0f : (pf = "" || sid = "") = false := by
        simpa using h0
      by_cases hv : validate_session_id sid = true
      · by_cases hex : (fs.any (fun p => p.dname = pf)) = true
        · rw [delete_session_main fs pf sid h0f hv hex] at hl ⊢
          by_cases hb1 : fsHasFile fs pf (sid ++ ".jsonl") = true <;>
            by_cases hb2 : fsHasFile fs pf ("session-" ++ sid ++ ".html") = true <;>
              by_cases hb3 : fsHasFile fs pf combinedName = true <;>
                simp only [Bool.not_eq_true] at hb1 hb2 hb3 <;>
                  simp [hb1, hb2, hb3, jsonl_ne_combined sid hv,
                    html_ne_combined sid hv] at hl ⊢ <;>
                    simp [hl]
        · have he : delete_session fs pf sid = ⟨.errNotFound, [], fs⟩ := by
            unfold delete_session
            rw [if_neg (by simp [h0f]), if_neg (by simp [hv]),
              if_pos (by simp [Bool.not_eq_true] at hex; simpa using hex)]
          rw [he] at hl
          exact absurd hl (by simp)
      · have hvf : validate_session_id sid = false := by
          simpa using hv
        have he : delete_session fs pf sid = ⟨.errInvalidId, [], fs⟩ := by
          unfold delete_session
          rw [if_neg (by simp [h0f]), if_pos (by simp [hvf])]
        rw [he] at hl
        exact absurd hl (by simp)
  · intro hv hpf hex hj1 hj2
    have h0 : (pf = "" || sid = "") = false := by
      simp [hpf, validate_ne_empty sid hv]
    rw [delete_session_main fs pf sid h0 hv hex]
    simp [hj1, hj2]

/-- Witness for the amended C8: deleting a session whose project holds only
the shard reports exactly that shard; deleting one whose project holds only
the aggregate artifact yields the nothing-to-delete error. -/
theorem deleted_list_reports_shard_files_witness :
    ([sidOk ++ ".jsonl"] =
      ((delete_session fsOnlyShard "p" sidOk).removed.filter
        (fun pr => pr.2 ≠ combinedName)).map Prod.snd) ∧
    (delete_session fsOnlyCombined "p" sidOk).response = .errNothing :=
  ⟨(deleted_list_reports_shard_files fsOnlyShard "p" sidOk).1
      [sidOk ++ ".jsonl"] (by decide),
   (deleted_list_reports_shard_files fsOnlyCombined "p" sidOk).2 (by decide)
      (by decide) (by decide) (by decide) (by decide)⟩

/-- C10.  Under a validated session id, every file the delete handler
unlinks lies in the requested project directory under one of the three
request-derived names, and no character of the id — hence of any unlinked
file's name — is a path separator. -/
theorem delete_paths_confined (fs : FS) (pf sid : String)
    (hv : validate_session_id sid = true) :
    (∀ pr ∈ (delete_session fs pf sid).removed,
       pr.1 = pf ∧ (pr.2 = sid ++ ".jsonl" ∨
         pr.2 = "session-" ++ sid ++ ".html" ∨ pr.2 = combinedName)) ∧
    (∀ c ∈ sid.data, c ≠ '/') ∧
    (∀ pr ∈ (delete_session fs pf sid).removed, ∀ c ∈ pr.2.data, c ≠ '/') := by
  have hsid : ∀ c ∈ sid.data, c ≠ '/' := by
    intro c hc
    rcases validate_chars sid hv c hc with h1 | h1 <;>
      · intro heq
        rw [heq] at h1
        exact absurd h1 (by decide)
  have hshape : ∀ pr ∈ (delete_session fs pf sid).removed,
      pr.1 = pf ∧ (pr.2 = sid ++ ".jsonl" ∨
        pr.2 = "session-" ++ sid ++ ".html" ∨ pr.2 = combinedName) := by
    by_cases h0 : (pf = "" || sid = "") = true
    · have he : delete_session fs pf sid = ⟨.errMissing, [], fs⟩ := by
        unfold delete_session
        rw [if_pos h0]
      rw [he]
      intro pr hpr
      exact absurd hpr (List.not_mem_nil pr)
    · have h0f : (pf = "" || sid = "") = false := by
        simpa using h0
      by_cases hex : (fs.any (fun p => p.dname = pf)) = true
      · rw [delete_session_main fs pf sid h0f hv hex]
        intro pr hpr
        simp only [List.mem_append] at hpr
        rcases hpr with (h | h) | h
        · rw [mem_ite_singleton _ _ _ h]
          exact ⟨rfl, Or.inl rfl⟩
        · rw [mem_ite_singleton _ _ _ h]
          exact ⟨rfl, Or.inr (Or.inl rfl)⟩
        · rw [mem_ite_singleton _ _ _ h]
          exact ⟨rfl, Or.inr (Or.inr rfl)⟩
      · have he : delete_session fs pf sid = ⟨.errNotFound, [], fs⟩ := by
          unfold delete_session
          rw [if_neg (by simp [h0f]), if_neg (by simp [hv]),
            if_pos (by simp [Bool.not_eq_true] at hex; simpa using hex)]
        rw [he]
        intro pr hpr
        exact absurd hpr (List.not_mem_nil pr)
  refine ⟨hshape, hsid, ?_⟩
  intro pr hpr c hc
  rcases hshape pr hpr with ⟨_, h | h | h⟩ <;> rw [h] at hc
  · rw [strData_append] at hc
    rcases List.mem_append.mp hc with h1 | h1
    · exact hsid c h1
    · intro heq
      rw [heq] at h1
      exact absurd h1 (by decide)
  · rw [strData_append, strData_append] at hc
    rcases List.mem_append.mp hc with h1 | h1
    · rcases List.mem_append.mp h1 with h2 | h2
      · intro heq
        rw [heq] at h2
        exact absurd h2 (by decide)
      · exact hsid c h2
    · intro heq
      rw [heq] at h1
      exact absurd h1 (by decide)
  · intro heq
    rw [heq] at hc
    exact absurd hc (by decide)

/-- Witness for C10, at a project holding the shard and the aggregate: the
aggregate pair carries the project name and one of the three derived
names, and a sample id character differs from the separator. -/
theorem delete_paths_confined_witness :
    (("p", combinedName).1 = "p" ∧
      (("p", combinedName).2 = sidOk ++ ".jsonl" ∨
       ("p", combinedName).2 = "session-" ++ sidOk ++ ".html" ∨
       ("p", combinedName).2 = combinedName)) ∧ ('0' : Char) ≠ '/' :=
  ⟨(delete_paths_confined fsShardAndCombined "p" sidOk (by decide)).1
      ("p", combinedName) (by decide),
   (delete_paths_confined fsShardAndCombined "p" sidOk (by decide)).2.1 '0'
      (by decide)⟩

/-- Counterexample to C8 as stated: with the shard and the aggregate
artifact present, the handler unlinks both, but the reported deleted list
names only the shard — the aggregate artifact was actually removed and is
not in the list. -/
theorem deleted_list_counterexample :
    (delete_session fsShardAndCombined "p" sidOk).response =
      .ok [sidOk ++ ".jsonl"] ∧
    (delete_session fsShardAndCombined "p" sidOk).removed.map Prod.snd =
      [sidOk ++ ".jsonl", "combined_transcripts.html"] := by
  decide

/-- C9.  The extraction is total and defensive: every matched link block
yields a record (none aborts the extraction — the length of the result is
the number of matches, over every content); a block whose timestamp,
message-count or preview search fails gets the empty-timestamp,
zero-count or empty-preview default; a concrete fully well-formed block
yields the fully populated record, and a concrete block with every
sub-field missing yields the all-defaults record (title falling back to
the first eight id characters as the code writes it). -/
theorem parse_defensive_defaults :
    (∀ (pf : String) (dir : List FEntry) (content : String),
       (parse_sessions_from_combined pf dir content).length =
         (findSessionLinks content.data).length) ∧
    (∀ (pf : String) (dir : List FEntry) (sid lc : List Char),
       (tsSearch lc = none →
          (mkSessionInfo pf dir sid lc).timestamp_start = "" ∧
          (mkSessionInfo pf dir sid lc).timestamp_end = "") ∧
       (msgScan lc = none → (mkSessionInfo pf dir sid lc).messages = 0) ∧
       (previewSearch lc = none → (mkSessionInfo pf dir sid lc).preview = "")) ∧
    parse_sessions_from_combined "proj" dirAbc wfContent =
      [⟨"abc123", "My Title", "2024-01-01", "2024-01-02", 5, "Token usage 100",
        "hello", some "proj/session-abc123.html", 42, 7, "proj"⟩] ∧
    parse_sessions_from_combined "proj" dirAbc mfContent =
      [⟨"deadbeef", "deadbeef", "", "", 0, "", "", none, 0, 0, "proj"⟩] := by
  refine ⟨?_, ?_, by decide, by decide⟩
  · intro pf dir content
    unfold parse_sessions_from_combined
    rw [List.length_map]
  · intro pf dir sid lc
    refine ⟨fun h => ?_, fun h => ?_, fun h => ?_⟩
    · constructor <;> simp [mkSessionInfo, h]
    · simp [mkSessionInfo, h]
    · simp [mkSessionInfo, h]

/-- Witness for C9 at the all-defaults block: each failing sub-search is
discharged concretely and the defaults come out. -/
theorem parse_defensive_defaults_witness :
    ((mkSessionInfo "proj" dirAbc "deadbeef".data mfBlock).timestamp_start = "" ∧
     (mkSessionInfo "proj" dirAbc "deadbeef".data mfBlock).timestamp_end = "") ∧
    (mkSessionInfo "proj" dirAbc "deadbeef".data mfBlock).messages = 0 ∧
    (mkSessionInfo "proj" dirAbc "deadbeef".data mfBlock).preview = "" :=
  ⟨(parse_defensive_defaults.2.1 "proj" dirAbc "deadbeef".data mfBlock).1
      (by decide),
   (parse_defensive_defaults.2.1 "proj" dirAbc "deadbeef".data mfBlock).2.1
      (by decide),
   (parse_defensive_defaults.2.1 "proj" dirAbc "deadbeef".data mfBlock).2.2
      (by decide)⟩

end ClaudeLog
